import Mathlib

/-!
Verification development for the masonry grid engine in
`src/Masonry/Masonry.js`.

The JavaScript source is shallowly embedded: numbers become rationals
(`ℚ`, except where `Math.sqrt` forces `ℝ`), the mutable component state
becomes the explicit record `MasonryState`, and each method becomes a
pure function over that record.  Item payloads are kept opaque via a
type parameter `α`; a measured item arrives as a pair
`(payload, measured height)`.  The server-rendering branch
(`serverRefs`/`serverRefSizes`) is never active in the modelled
client-side lifecycle (the arrays stay empty), so the corresponding
slicing branch is not taken.
-/

attribute [local semireducible] Rat.add Rat.mul Rat.sub Rat.inv

namespace Masonry

/-- `GridItemType` from the source: one placed grid entry. The React
`component` field is presentation-only and carries no layout data, so it
is not part of the embedding. -/
structure GridItem (α : Type) where
  key : ℚ
  itemData : α
  column : ℕ
  width : ℚ
  height : ℚ
  left : ℚ
  top : ℚ
  bottom : ℚ
  appended : Bool
deriving DecidableEq

/-- Configuration fixed at mount/resize time: `this.columnCount`,
`this.itemWidth`, `this.gutterWidth`. -/
structure MasonryConfig where
  columnCount : ℕ
  itemWidth : ℚ
  gutterWidth : ℚ
deriving DecidableEq

/-- The mutable per-instance state touched by `insertItems`:
`state.gridItems`, `this.itemKeyCounter` (0 models the initial
`undefined`, which is falsy like 0), `this.insertedItemsCount`,
`state.height`, `state.minHeight`. -/
structure MasonryState (α : Type) where
  gridItems : List (List (GridItem α))
  itemKeyCounter : ℕ
  insertedItemsCount : ℕ
  height : ℚ
  minHeight : ℚ
deriving DecidableEq

variable {α : Type}

/-- Freshly constructed component: empty grid, no counters. -/
def initialState : MasonryState α :=
  { gridItems := [], itemKeyCounter := 0, insertedItemsCount := 0,
    height := 0, minHeight := 0 }

/-- `MAX_ITEMS_PER_INSERTION` (line 9 of the source). -/
def maxItemsPerInsertion : ℕ := 1

/-- `VIRTUAL_BUFFER_FACTOR` (line 36 of the source). -/
def virtualBufferFactor : ℚ := 7 / 10

/-- JavaScript `parseInt(q, 10)` on a finite number: truncation toward
zero of the decimal representation. -/
def parseIntTrunc (q : ℚ) : ℤ :=
  if q < 0 then -⌊-q⌋ else ⌊q⌋

/-- Loop body of `getShortestColumn`: iterate `col` upward carrying the
current `min`, returning early at the first column without a last item.
The columns still to be visited (`g.drop col`) are passed structurally
so the recursion is kernel-evaluable; `g` itself is kept for the
`gridItems[min]` lookup. -/
def shortestAux (g : List (List (GridItem α))) :
    ℕ → ℕ → List (List (GridItem α)) → ℕ
  | min, _, [] => min
  | min, col, colItems :: rest =>
    match colItems.getLast? with
    | none => col
    | some lastItem =>
      match (g.get? min).bind List.getLast? with
      | none => shortestAux g col (col + 1) rest
      | some currMin =>
        if lastItem.bottom < currMin.bottom then shortestAux g col (col + 1) rest
        else shortestAux g min (col + 1) rest

/-- `getShortestColumn` (source lines 47-66). -/
def getShortestColumn (gridItems : List (List (GridItem α))) : ℕ :=
  shortestAux gridItems 0 0 gridItems

/-- The per-item info blob assembled in the first phase of
`insertItems` (key, payload, measured width/height) before geometry is
committed. -/
structure PendingItem (α : Type) where
  key : ℚ
  itemData : α
  width : ℚ
  height : ℚ
deriving DecidableEq

/-- Key assignment and measurement loop of `insertItems`
(source lines 383-424).  `targeted` is `colIdx != null && itemIdx != null`;
`prev` is the captured `previousItemInColumn`.  Returns the item infos
together with the final `itemKeyCounter`.  Measured width is the current
`itemWidth` (each measuring node is rendered at that width). -/
def buildItemInfos (cfg : MasonryConfig) (targeted : Bool)
    (prev : Option (GridItem α)) :
    ℕ → List (α × ℚ) → List (PendingItem α) × ℕ
  | counter, [] => ([], counter)
  | counter, (d, ht) :: rest =>
    let key : ℚ :=
      if targeted then
        let counterAsDecimal : ℚ := ((counter % 10000 : ℕ) : ℚ) / 1000
        match prev with
        | some p => ((parseIntTrunc p.key : ℤ) : ℚ) + counterAsDecimal
        | none => counterAsDecimal
      else (counter : ℚ)
    let tail := buildItemInfos cfg targeted prev (counter + 1) rest
    ({ key := key, itemData := d, width := cfg.itemWidth, height := ht } :: tail.1,
      tail.2)

/-- The uniform downward shift applied to items after an insertion point
(source lines 478-482). -/
def shiftItem (off : ℚ) (it : GridItem α) : GridItem α :=
  { it with top := it.top + off, bottom := it.bottom + off }

/-- Placement loop body of `insertItems` (source lines 455-499): either
a targeted splice into `colIdx` at `itemIdx` followed by the downstream
shift, or a shortest-column append.  A targeted insert into a column
that does not exist is skipped (`if (!gridItems[colIdx]) return`).  The
append branch on a grid with no columns would throw in JS; the embedding
leaves the grid unchanged there (unreachable for `columnCount ≥ 1`). -/
def placeItem (cfg : MasonryConfig) (colIdx itemIdx : Option ℕ)
    (prev : Option (GridItem α)) (grid : List (List (GridItem α)))
    (info : PendingItem α) : List (List (GridItem α)) :=
  match colIdx, itemIdx with
  | some c, some i =>
    match grid.get? c with
    | none => grid
    | some col =>
      let left : ℚ := (c : ℚ) * cfg.itemWidth
      let top : ℚ := match prev with | some p => p.bottom | none => 0
      let it : GridItem α :=
        { key := info.key, itemData := info.itemData, column := c,
          width := info.width, height := info.height, left := left, top := top,
          bottom := top + info.height + cfg.gutterWidth, appended := false }
      let col1 := col.take i ++ it :: col.drop i
      let col2 :=
        if i + 1 < col1.length then
          let off : ℚ := ((col1.get? i).map GridItem.bottom).getD 0 -
            ((col1.get? (i + 1)).map GridItem.top).getD 0
          col1.take (i + 1) ++ (col1.drop (i + 1)).map (shiftItem off)
        else col1
      grid.set c col2
  | _, _ =>
    let c := getShortestColumn grid
    match grid.get? c with
    | none => grid
    | some col =>
      let top : ℚ := match col.getLast? with | some l => l.bottom | none => 0
      let it : GridItem α :=
        { key := info.key, itemData := info.itemData, column := c,
          width := info.width, height := info.height,
          left := (c : ℚ) * cfg.itemWidth, top := top,
          bottom := top + info.height + cfg.gutterWidth, appended := true }
      grid.set c (col ++ [it])

/-- `insertItems` (source lines 348-527), on the client path where
`serverRefs` is empty.  Items come pre-measured as `(payload, height)`
pairs; the DOM measuring detour returns exactly these heights. -/
def insertItems (cfg : MasonryConfig) (st : MasonryState α)
    (newItems : List (α × ℚ)) (colIdx itemIdx : Option ℕ)
    (forceUpdate : Bool) : MasonryState α :=
  let gridItems0 := if forceUpdate then [] else st.gridItems
  let prev : Option (GridItem α) :=
    match colIdx, itemIdx with
    | some c, some i =>
      match i with
      | 0 => none
      | i0 + 1 => (gridItems0.get? c).bind (fun col => col.get? i0)
    | _, _ => none
  let gridItems1 :=
    if gridItems0.isEmpty then
      List.replicate cfg.columnCount ([] : List (GridItem α))
    else gridItems0
  let items := if forceUpdate then newItems else newItems.take maxItemsPerInsertion
  let counter0 := if st.itemKeyCounter = 0 then 1 else st.itemKeyCounter
  let targeted := colIdx.isSome && itemIdx.isSome
  let built := buildItemInfos cfg targeted prev counter0 items
  let grid2 := built.1.foldl (placeItem cfg colIdx itemIdx prev) gridItems1
  let insertedCount1 :=
    match colIdx, itemIdx with
    | none, none => st.insertedItemsCount + items.length
    | _, _ => st.insertedItemsCount
  let height1 := grid2.foldl (fun acc col =>
    match col.getLast? with
    | some l => if acc < l.bottom then l.bottom else acc
    | none => acc) 0
  let minH : Option ℚ := grid2.foldl (fun acc col =>
    match col.getLast? with
    | some l =>
      match acc with
      | none => some l.bottom
      | some m => if m > l.bottom then some l.bottom else acc
    | none => acc) none
  let minHeight1 :=
    match minH with
    | some m => if m = 0 then st.minHeight else m
    | none => st.minHeight
  { gridItems := grid2, itemKeyCounter := built.2,
    insertedItemsCount := insertedCount1,
    height := height1, minHeight := minHeight1 }

/-- `setGridItems` (source lines 246-250): reset the feed counter and
rebuild the whole grid. -/
def setGridItems (cfg : MasonryConfig) (st : MasonryState α)
    (items : List (α × ℚ)) : MasonryState α :=
  insertItems cfg { st with insertedItemsCount := 0 } items none none true

/-- The frame-paced feed drain: each `insertNextItems` tick calls
`insertItems` on the not-yet-inserted suffix, which (with `serverRefs`
empty) takes exactly `MAX_ITEMS_PER_INSERTION = 1` item.  Draining a
feed is therefore the left fold of single appends. -/
def appendFeed (cfg : MasonryConfig) (st : MasonryState α)
    (feed : List (α × ℚ)) : MasonryState α :=
  feed.foldl (fun s it => insertItems cfg s [it] none none false) st

/-- `allItems` (source lines 640-647): concatenation of the columns. -/
def allItems (st : MasonryState α) : List (GridItem α) :=
  if st.gridItems.isEmpty then [] else st.gridItems.flatten

/-- Sorting all grid items by ascending `key`
(as in `reflow`: `.sort((a, b) => a.key - b.key)`). -/
def sortByKey (l : List (GridItem α)) : List (GridItem α) :=
  l.insertionSort (fun a b => a.key ≤ b.key)

/-- `updateVirtualBounds` (source lines 558-569), as a pure function of
the scroll position, container height and container offset.  Returns
`(viewportTop, viewportBottom)`. -/
def updateVirtualBounds (containerHeight containerOffset scrollPos : ℚ) :
    ℚ × ℚ :=
  let virtualBuffer := containerHeight * virtualBufferFactor
  let offsetScrollPos := scrollPos - containerOffset
  (offsetScrollPos - virtualBuffer,
    offsetScrollPos + containerHeight + virtualBuffer)

/-- `itemIsVisible` (source lines 649-651). -/
def itemIsVisible (viewportTop viewportBottom : ℚ) (item : GridItem α) :
    Bool :=
  !(decide (item.bottom < viewportTop) || decide (item.top > viewportBottom))

/-- `calculateColumns` (source lines 574-592), given a measured parent
width. -/
def calculateColumns (columnWidth gutterWidth parentWidth : ℚ)
    (minCols : ℤ) : ℤ :=
  let eachItemWidth := columnWidth + gutterWidth
  let newColCount := ⌊parentWidth / eachItemWidth⌋
  if newColCount < minCols then minCols else newColCount

/-- The corner-to-corner helper `distance` (source lines 38-42). -/
noncomputable def cornerDistance (a b : ℚ × ℚ) : ℝ :=
  let x := a.1 - b.1
  let y := a.2 - b.2
  Real.sqrt ((x * x + y * y : ℚ) : ℝ)

/-- `calculateDistance` (source lines 271-295).  The same-column and
overlapping-columns branches are rational; only the Euclidean branch
needs `ℝ`.  (Division by a zero `A.height` yields 0 in `ℚ` where JS
would give Infinity; no claim exercises that case.) -/
noncomputable def calculateDistance (columnWidth gutterWidth : ℚ)
    (A B : GridItem α) : ℝ :=
  if A.column = B.column then
    ((if A.top < B.top then B.top - (A.bottom + gutterWidth) - 1
      else A.top - (B.bottom + gutterWidth) - 1 : ℚ) : ℝ)
  else if (A.top ≤ B.top ∧ A.bottom ≥ B.top) ∨
      (A.top ≤ B.bottom ∧ A.bottom ≥ B.bottom) ∨
      (B.top ≤ A.top ∧ B.bottom ≥ A.top) then
    let columnWeight : ℚ := 25
    let columnDistance : ℚ :=
      ((((A.column : ℤ) - (B.column : ℤ)).natAbs - 1 : ℕ) : ℚ) * columnWeight
    ((columnDistance + |A.top - B.top| / A.height : ℚ) : ℝ)
  else if A.top < B.top then
    if A.left < B.left then
      cornerDistance (A.bottom, A.left + columnWidth) (B.top, B.left)
    else
      cornerDistance (A.bottom, A.left) (B.top, B.left + columnWidth)
  else
    if A.left < B.left then
      cornerDistance (A.top, A.left + columnWidth) (B.bottom, B.left)
    else
      cornerDistance (A.top, A.left) (B.bottom, B.left + columnWidth)

/-- One `(columnIdx, itemIdx, count)` bucket returned by
`getItemsRelatedTo`. -/
structure RelatedTarget where
  columnIdx : ℕ
  itemIdx : ℕ
  count : ℕ
deriving DecidableEq

/-- Grouping loop of `getItemsRelatedTo` (source lines 212-226): walk
the `noItems` closest candidates, remembering per column the item index
of the first (closest) one and a count. -/
def groupCandidates (cands : List (ℝ × ℕ × ℕ)) : List RelatedTarget :=
  cands.foldl (fun acc cand =>
    match acc.find? (fun e => e.columnIdx == cand.2.1) with
    | none => acc ++ [{ columnIdx := cand.2.1, itemIdx := cand.2.2, count := 1 }]
    | some _ => acc.map (fun e =>
        if e.columnIdx == cand.2.1 then { e with count := e.count + 1 } else e))
   []

/-- `getItemsRelatedTo` (source lines 189-232).  `Object.keys` on the
column-keyed mapping enumerates integer-like keys in ascending numeric
order, modelled by the final sort on `columnIdx`. -/
noncomputable def getItemsRelatedTo (columnWidth gutterWidth : ℚ)
    (gridItems : List (List (GridItem α))) (colIdx iIdx noItems : ℕ) :
    List RelatedTarget :=
  match (gridItems.get? colIdx).bind (fun col => col.get? iIdx) with
  | none => []
  | some itemA =>
    let cands : List (ℝ × ℕ × ℕ) :=
      gridItems.enum.flatMap (fun pc =>
        pc.2.enum.filterMap (fun pi =>
          if pi.2.top < itemA.top - 20 ∨ (colIdx = pc.1 ∧ iIdx = pi.1) then none
          else some (calculateDistance columnWidth gutterWidth itemA pi.2,
            pc.1, pi.1)))
    let sorted := cands.mergeSort (fun a b => decide (a.1 ≤ b.1))
    let mapping := groupCandidates (sorted.take noItems)
    mapping.mergeSort (fun a b => decide (a.columnIdx ≤ b.columnIdx))

/-! ## Derived notions used by the specification claims -/

/-- Bottom of the last item of column `i`, defaulting to 0 (only used
where the column is known to be non-empty). -/
def lastBottomD (g : List (List (GridItem α))) (i : ℕ) : ℚ :=
  (((g.get? i).bind List.getLast?).map GridItem.bottom).getD 0

/-- Geometry equation of a single placed item:
`bottom = top + height + gutter`. -/
def itemGeomOK (gutter : ℚ) (it : GridItem α) : Prop :=
  it.bottom = it.top + it.height + gutter

/-- The first item of a (non-empty) column starts at the very top. -/
def headTop0 (col : List (GridItem α)) : Prop :=
  (col.head?.map GridItem.top).getD 0 = 0

/-- Well-formed column: per-item geometry equation, exact adjacency
(each item's `top` equals its predecessor's `bottom`), and the head at
`top = 0`.  This is the inductive strengthening of the spec's
no-overlap invariant that the insertion paths actually maintain. -/
def colWF (gutter : ℚ) (col : List (GridItem α)) : Prop :=
  (∀ it ∈ col, itemGeomOK gutter it) ∧
  col.Chain' (fun a b => b.top = a.bottom) ∧
  headTop0 col

/-- Every column of the grid is well formed. -/
def gridGeomWF (gutter : ℚ) (grid : List (List (GridItem α))) : Prop :=
  ∀ col ∈ grid, colWF gutter col

/-- Each item's `column` field names the column list that holds it. -/
def colFieldsOK (grid : List (List (GridItem α))) : Prop :=
  ∀ i col, grid.get? i = some col → ∀ it ∈ col, it.column = i

/-- Validity of a targeted insertion: the item index is at most the
length of the column it names (in the grid as seen after the
empty-grid column initialisation). -/
def insertTargetValid (cfg : MasonryConfig) (st : MasonryState α)
    (c i : ℕ) : Prop :=
  ∀ col,
    (if st.gridItems.isEmpty then
      List.replicate cfg.columnCount ([] : List (GridItem α))
    else st.gridItems).get? c = some col → i ≤ col.length

/-- Key/payload view of a grid item, used for the key-order round trip. -/
def keyData (it : GridItem α) : ℚ × α := (it.key, it.itemData)

instance (gutter : ℚ) (it : GridItem α) : Decidable (itemGeomOK gutter it) :=
  inferInstanceAs (Decidable (it.bottom = it.top + it.height + gutter))

instance (col : List (GridItem α)) : Decidable (headTop0 col) :=
  inferInstanceAs (Decidable ((col.head?.map GridItem.top).getD 0 = 0))

/-- Executable check of the exact-adjacency chain, for evaluating
`colWF` on concrete columns. -/
def chainB : List (GridItem α) → Bool
  | [] => true
  | [_] => true
  | a :: b :: rest => decide (b.top = a.bottom) && chainB (b :: rest)

lemma chainB_iff :
    ∀ col : List (GridItem α),
      chainB col = true ↔ col.Chain' (fun a b => b.top = a.bottom)
  | [] => by simp [chainB]
  | [a] => by simp [chainB]
  | a :: b :: rest => by
    rw [List.chain'_cons, ← chainB_iff (b :: rest)]
    simp [chainB, and_comm]

instance (gutter : ℚ) (col : List (GridItem α)) : Decidable (colWF gutter col) :=
  decidable_of_iff ((∀ it ∈ col, itemGeomOK gutter it) ∧
    chainB col = true ∧ headTop0 col)
    (by unfold colWF; rw [chainB_iff])

instance (gutter : ℚ) (grid : List (List (GridItem α))) :
    Decidable (gridGeomWF gutter grid) :=
  inferInstanceAs (Decidable (∀ col ∈ grid, colWF gutter col))

lemma colFieldsOK_iff_enum (grid : List (List (GridItem α))) :
    colFieldsOK grid ↔ ∀ p ∈ grid.enum, ∀ it ∈ p.2, it.column = p.1 := by
  unfold colFieldsOK
  constructor
  · intro h p hp it hit
    rcases List.mk_mem_enum_iff_getElem?.mp (by exact hp) with hg
    exact h p.1 p.2 (by rw [List.get?_eq_getElem?]; exact hg) it hit
  · intro h i col hcol it hit
    refine h (i, col) ?_ it hit
    exact List.mk_mem_enum_iff_getElem?.mpr (by rw [← List.get?_eq_getElem?]; exact hcol)

instance (grid : List (List (GridItem α))) : Decidable (colFieldsOK grid) :=
  decidable_of_iff _ (colFieldsOK_iff_enum grid).symm

lemma insertTargetValid_iff (cfg : MasonryConfig) (st : MasonryState α)
    (c i : ℕ) :
    insertTargetValid cfg st c i ↔
      (((if st.gridItems.isEmpty then
          List.replicate cfg.columnCount ([] : List (GridItem α))
        else st.gridItems).get? c).map
          (fun col => decide (i ≤ col.length))).getD true = true := by
  unfold insertTargetValid
  cases h : (if st.gridItems.isEmpty then
      List.replicate cfg.columnCount ([] : List (GridItem α))
    else st.gridItems).get? c with
  | none => simp [h]
  | some col => simp [h]

instance (cfg : MasonryConfig) (st : MasonryState α) (c i : ℕ) :
    Decidable (insertTargetValid cfg st c i) :=
  decidable_of_iff _ (insertTargetValid_iff cfg st c i).symm

/-- The canonical key tagging of a feed suffix: after `k` feed items
have been placed, the next ones receive integer keys `k+1`, `k+2`, …. -/
def tagged : ℕ → List (α × ℚ) → List (ℚ × α)
  | _, [] => []
  | k, (d, _) :: rest => (((k + 1 : ℕ) : ℚ), d) :: tagged (k + 1) rest

/-! ## Loop invariants of `getShortestColumn` -/

lemma lastBottomD_eq (g : List (List (GridItem α))) (i : ℕ)
    (col : List (GridItem α)) (x : GridItem α)
    (hc : g.get? i = some col) (hx : col.getLast? = some x) :
    lastBottomD g i = x.bottom := by
  unfold lastBottomD
  rw [hc, Option.some_bind, hx]
  rfl

lemma drop_cons_lt {β : Type} {g : List β} {col : ℕ} {x : β} {rest : List β}
    (hdrop : g.drop col = x :: rest) : col < g.length := by
  by_contra hge
  rw [List.drop_eq_nil_of_le (le_of_not_lt hge)] at hdrop
  exact List.cons_ne_nil _ _ hdrop.symm

lemma drop_cons_succ {β : Type} {g : List β} {col : ℕ} {x : β} {rest : List β}
    (hdrop : g.drop col = x :: rest) : g.drop (col + 1) = rest := by
  rw [← List.tail_drop, hdrop]
  rfl

lemma drop_cons_getElem {β : Type} {g : List β} {col : ℕ} {x : β}
    {rest : List β} (hdrop : g.drop col = x :: rest) :
    g.get? col = some x := by
  have hlt : col < g.length := drop_cons_lt hdrop
  rw [List.get?_eq_getElem?, List.getElem?_eq_getElem hlt]
  have := List.drop_eq_getElem_cons hlt
  rw [hdrop] at this
  exact congrArg some (List.head_eq_of_cons_eq this.symm)

lemma shortestAux_lt_length (g : List (List (GridItem α))) :
    ∀ rest mn col, g.drop col = rest → mn < g.length →
      shortestAux g mn col rest < g.length := by
  intro rest
  induction rest with
  | nil =>
    intro mn col _ hmn
    exact hmn
  | cons colItems rest ih =>
    intro mn col hdrop hmn
    have hcol : col < g.length := drop_cons_lt hdrop
    have hdrop' : g.drop (col + 1) = rest := drop_cons_succ hdrop
    cases hl : colItems.getLast? with
    | none =>
      simp only [shortestAux, hl]
      exact hcol
    | some lastItem =>
      cases hm : (g.get? mn).bind List.getLast? with
      | none =>
        simp only [shortestAux, hl, hm]
        exact ih col (col + 1) hdrop' hcol
      | some currMin =>
        by_cases hlt : lastItem.bottom < currMin.bottom
        · simp only [shortestAux, hl, hm, if_pos hlt]
          exact ih col (col + 1) hdrop' hcol
        · simp only [shortestAux, hl, hm, if_neg hlt]
          exact ih mn (col + 1) hdrop' hmn

lemma shortestAux_first_empty (g : List (List (GridItem α))) (e : ℕ)
    (hemp : g.get? e = some [])
    (hbefore : ∀ j, j < e → g.get? j ≠ some []) :
    ∀ rest mn col, g.drop col = rest → col ≤ e →
      shortestAux g mn col rest = e := by
  intro rest
  induction rest with
  | nil =>
    intro mn col hdrop hce
    exfalso
    have he : e < g.length := by
      rcases List.get?_eq_some.mp hemp with ⟨he, _⟩
      exact he
    have : g.length ≤ col := by
      by_contra hcl
      rw [List.drop_eq_getElem_cons (lt_of_not_le hcl)] at hdrop
      exact List.cons_ne_nil _ _ hdrop
    omega
  | cons colItems rest ih =>
    intro mn col hdrop hce
    have hcol : col < g.length := drop_cons_lt hdrop
    have hdrop' : g.drop (col + 1) = rest := drop_cons_succ hdrop
    have hget : g.get? col = some colItems := drop_cons_getElem hdrop
    cases hl : colItems.getLast? with
    | none =>
      simp only [shortestAux, hl]
      have hnil : colItems = [] := List.getLast?_eq_none_iff.mp hl
      rcases Nat.lt_or_ge col e with hlt | hge
      · exact absurd (hnil ▸ hget) (hbefore col hlt)
      · omega
    | some lastItem =>
      have hne : col ≠ e := by
        intro hcec
        rw [hcec, hemp] at hget
        have : colItems = [] := (Option.some.inj hget).symm
        rw [this] at hl
        simp at hl
      cases hm : (g.get? mn).bind List.getLast? with
      | none =>
        simp only [shortestAux, hl, hm]
        exact ih col (col + 1) hdrop' (by omega)
      | some currMin =>
        by_cases hlt : lastItem.bottom < currMin.bottom
        · simp only [shortestAux, hl, hm, if_pos hlt]
          exact ih col (col + 1) hdrop' (by omega)
        · simp only [shortestAux, hl, hm, if_neg hlt]
          exact ih mn (col + 1) hdrop' (by omega)

lemma shortestAux_min (g : List (List (GridItem α)))
    (hfull : ∀ col ∈ g, col ≠ []) :
    ∀ rest mn col, g.drop col = rest → mn < g.length →
      (∀ j, j < col → lastBottomD g mn ≤ lastBottomD g j) →
      (∀ j, j < mn → lastBottomD g mn < lastBottomD g j) →
      (∀ j, j < g.length →
        lastBottomD g (shortestAux g mn col rest) ≤ lastBottomD g j) ∧
      (∀ j, j < shortestAux g mn col rest →
        lastBottomD g (shortestAux g mn col rest) < lastBottomD g j) := by
  intro rest
  induction rest with
  | nil =>
    intro mn col hdrop hmn hle hstrict
    have hlen : g.length ≤ col := by
      by_contra hcl
      rw [List.drop_eq_getElem_cons (lt_of_not_le hcl)] at hdrop
      exact List.cons_ne_nil _ _ hdrop
    exact ⟨fun j hj => hle j (by omega), hstrict⟩
  | cons colItems rest ih =>
    intro mn col hdrop hmn hle hstrict
    have hcol : col < g.length := drop_cons_lt hdrop
    have hdrop' : g.drop (col + 1) = rest := drop_cons_succ hdrop
    have hget : g.get? col = some colItems := drop_cons_getElem hdrop
    have hmem : colItems ∈ g := by
      have h2 : g[col] = colItems := by
        have h3 := hget
        rw [List.get?_eq_getElem?, List.getElem?_eq_getElem hcol] at h3
        exact Option.some.inj h3
      exact h2 ▸ List.getElem_mem hcol
    cases hl : colItems.getLast? with
    | none =>
      exact absurd (List.getLast?_eq_none_iff.mp hl) (hfull colItems hmem)
    | some lastItem =>
      have hgm : g.get? mn = some g[mn] := by
        rw [List.get?_eq_getElem?, List.getElem?_eq_getElem hmn]
      have hmmem : g[mn] ∈ g := List.getElem_mem hmn
      cases hm0 : (g[mn]).getLast? with
      | none =>
        exact absurd (List.getLast?_eq_none_iff.mp hm0) (hfull g[mn] hmmem)
      | some currMin =>
        have hm : (g.get? mn).bind List.getLast? = some currMin := by
          rw [hgm, Option.some_bind, hm0]
        have hbc : lastBottomD g col = lastItem.bottom :=
          lastBottomD_eq g col colItems lastItem hget hl
        have hbm : lastBottomD g mn = currMin.bottom :=
          lastBottomD_eq g mn g[mn] currMin hgm hm0
        by_cases hlt : lastItem.bottom < currMin.bottom
        · simp only [shortestAux, hl, hm, if_pos hlt]
          refine ih col (col + 1) hdrop' hcol ?_ ?_
          · intro j hj
            rcases Nat.lt_or_ge j col with hjc | hjc
            · calc lastBottomD g col = lastItem.bottom := hbc
                _ ≤ lastBottomD g mn := by rw [hbm]; exact le_of_lt hlt
                _ ≤ lastBottomD g j := hle j hjc
            · have : j = col := by omega
              rw [this]
          · intro j hj
            calc lastBottomD g col = lastItem.bottom := hbc
              _ < lastBottomD g mn := by rw [hbm]; exact hlt
              _ ≤ lastBottomD g j := hle j hj
        · simp only [shortestAux, hl, hm, if_neg hlt]
          refine ih mn (col + 1) hdrop' hmn ?_ hstrict
          intro j hj
          rcases Nat.lt_or_ge j col with hjc | hjc
          · exact hle j hjc
          · have : j = col := by omega
            rw [this, hbm, hbc]
            exact not_lt.mp hlt

/-! ## Concrete instances used by examples, witnesses and
counterexamples -/

/-- A grid item whose only relevant datum is its `bottom`. -/
def itemWithBottom (b : ℚ) : GridItem ℕ :=
  { key := 0, itemData := 0, column := 0, width := 0, height := 0,
    left := 0, top := 0, bottom := b, appended := false }

/-- Spec's shortest-column example: last-item bottoms 100, 40, 90. -/
def demoColumns3 : List (List (GridItem ℕ)) :=
  [[itemWithBottom 100], [itemWithBottom 40], [itemWithBottom 90]]

/-- … with an extra empty fourth column. -/
def demoColumns4 : List (List (GridItem ℕ)) :=
  [[itemWithBottom 100], [itemWithBottom 40], [itemWithBottom 90], []]

/-- One-column demo configuration (gutter 2). -/
def cfg1 : MasonryConfig :=
  { columnCount := 1, itemWidth := 10, gutterWidth := 2 }

/-- One appended item: data 0, height 5 → top 0, bottom 7, key 1. -/
def stA : MasonryState ℕ :=
  insertItems cfg1 initialState [(0, 5)] none none false

/-- … then related item 1 (height 5) inserted at column 0, index 1. -/
def stAX : MasonryState ℕ :=
  insertItems cfg1 stA [(1, 5)] (some 0) (some 1) false

/-- … then related item 2 (height 5) inserted again at column 0,
index 1. -/
def stAXZ : MasonryState ℕ :=
  insertItems cfg1 stAX [(2, 5)] (some 0) (some 1) false

/-! ## C8 — column count recomputation -/

/-- C8: the recomputed column count is
`floor(containerWidth / (columnWidth + gutterWidth))` raised to the
configured minimum when smaller (i.e. the max of the two); concretely,
`minCols = 3`, `columnWidth = 236`, `gutterWidth = 14`,
`containerWidth = 1000` gives 4 columns. -/
theorem calculateColumns_spec :
    (∀ (columnWidth gutterWidth parentWidth : ℚ) (minCols : ℤ),
      calculateColumns columnWidth gutterWidth parentWidth minCols =
        max ⌊parentWidth / (columnWidth + gutterWidth)⌋ minCols) ∧
    calculateColumns 236 14 1000 3 = 4 := by
  constructor
  · intro cw gw pw mc
    simp only [calculateColumns]
    split <;> omega
  · have h4 : ((1000 : ℚ) / (236 + 14)) = 4 := by norm_num
    simp only [calculateColumns, h4]
    norm_num

/-! ## C6 — virtualization window -/

/-- C6: the window is
`viewportTop = (scroll - offset) - 0.7 * containerHeight`,
`viewportBottom = (scroll - offset) + containerHeight + 0.7 * containerHeight`,
an item is visible iff `bottom ≥ viewportTop ∧ top ≤ viewportBottom`,
and the spec's concrete instance (height 800, scroll 1000, offset 0)
gives the window `[440, 2360]` with item (2000, 2100) visible and an
item with top 2400 not visible. -/
theorem virtualization_window_spec :
    (∀ containerHeight containerOffset scrollPos : ℚ,
      updateVirtualBounds containerHeight containerOffset scrollPos =
        ((scrollPos - containerOffset) - containerHeight * (7 / 10),
          (scrollPos - containerOffset) + containerHeight +
            containerHeight * (7 / 10))) ∧
    (∀ (vt vb : ℚ) (item : GridItem ℕ),
      itemIsVisible vt vb item = true ↔ vt ≤ item.bottom ∧ item.top ≤ vb) ∧
    updateVirtualBounds 800 0 1000 = (440, 2360) ∧
    itemIsVisible 440 2360
      { itemWithBottom 2100 with top := 2000, bottom := 2100 } = true ∧
    itemIsVisible 440 2360
      { itemWithBottom 2500 with top := 2400, bottom := 2500 } = false := by
  refine ⟨fun _ _ _ => rfl,
    ?_, by norm_num [updateVirtualBounds, virtualBufferFactor, Prod.ext_iff],
    by norm_num [itemIsVisible], by norm_num [itemIsVisible]⟩
  intro vt vb item
  simp only [itemIsVisible, Bool.not_eq_true', Bool.or_eq_false_iff,
    decide_eq_false_iff_not, not_lt]

/-! ## C7 — same-column distance -/

/-- C7: for two grid items in the same column, `calculateDistance` is
the later item's `top` minus (the earlier item's `bottom` plus the
gutter width) minus 1. -/
theorem calculateDistance_same_column {α : Type} (cw gw : ℚ)
    (A B : GridItem α) (h : A.column = B.column) :
    (A.top < B.top →
      calculateDistance cw gw A B = ((B.top - (A.bottom + gw) - 1 : ℚ) : ℝ)) ∧
    (B.top < A.top →
      calculateDistance cw gw A B = ((A.top - (B.bottom + gw) - 1 : ℚ) : ℝ)) := by
  unfold calculateDistance
  rw [if_pos h]
  constructor
  · intro hlt
    rw [if_pos hlt]
  · intro hgt
    rw [if_neg (not_lt.mpr hgt.le)]

/-- Spec's concrete instance for C7: A(top 0, height 40, bottom 50),
B(top 80, height 30, bottom 110), same column, gutter 10:
distance `80 - (50 + 10) - 1 = 19`. -/
theorem calculateDistance_same_column_witness :
    calculateDistance 236 10
      { key := 0, itemData := (0 : ℕ), column := 0, width := 236, height := 40,
        left := 0, top := 0, bottom := 50, appended := false }
      { key := 0, itemData := (0 : ℕ), column := 0, width := 236, height := 30,
        left := 0, top := 80, bottom := 110, appended := false } =
      ((19 : ℚ) : ℝ) := by
  have h := (calculateDistance_same_column 236 10
    { key := 0, itemData := (0 : ℕ), column := 0, width := 236, height := 40,
      left := 0, top := 0, bottom := 50, appended := false }
    { key := 0, itemData := (0 : ℕ), column := 0, width := 236, height := 30,
      left := 0, top := 80, bottom := 110, appended := false } rfl).1
    (by norm_num)
  rw [h]
  norm_num

/-! ## C10 — related-items lookup with an invalid source -/

/-- C10: when `(colIdx, iIdx)` does not reference an existing grid item,
`getItemsRelatedTo` returns the empty list.  (The embedding of
`getItemsRelatedTo` is a pure function of the grid, matching the JS
method, which only reads `this.state.gridItems`; no state is
modified.) -/
theorem getItemsRelatedTo_invalid {α : Type} (cw gw : ℚ)
    (grid : List (List (GridItem α))) (colIdx iIdx n : ℕ)
    (h : (grid.get? colIdx).bind (fun col => col.get? iIdx) = none) :
    getItemsRelatedTo cw gw grid colIdx iIdx n = [] := by
  unfold getItemsRelatedTo
  rw [h]

/-- C10 witness: column 5 does not exist in a 3-column grid. -/
theorem getItemsRelatedTo_invalid_witness :
    getItemsRelatedTo 236 14
      [[itemWithBottom 100], [itemWithBottom 40], [itemWithBottom 90]]
      5 0 5 = [] :=
  getItemsRelatedTo_invalid 236 14
    [[itemWithBottom 100], [itemWithBottom 40], [itemWithBottom 90]]
    5 0 5 (by decide)

end Masonry

namespace Masonry

/-! ## C4 — shortest column -/

/-- C4: for a non-empty list of columns, `getShortestColumn` returns an
in-range index; it returns the first empty column when one exists; with
no empty column it returns the index minimising the last item's
`bottom`, strictly beating every smaller index (lowest-index
tie-break); and the spec's concrete instances: bottoms
`[100, 40, 90] → 1` and `[100, 40, 90, —] → 3`. -/
theorem getShortestColumn_spec {α : Type} (g : List (List (GridItem α)))
    (hne : g ≠ []) :
    getShortestColumn g < g.length ∧
    (∀ e, g.get? e = some [] → (∀ j, j < e → g.get? j ≠ some []) →
      getShortestColumn g = e) ∧
    ((∀ col ∈ g, col ≠ []) →
      (∀ j, j < g.length →
        lastBottomD g (getShortestColumn g) ≤ lastBottomD g j) ∧
      (∀ j, j < getShortestColumn g →
        lastBottomD g (getShortestColumn g) < lastBottomD g j)) ∧
    getShortestColumn demoColumns3 = 1 ∧
    getShortestColumn demoColumns4 = 3 := by
  have hlen : 0 < g.length := List.length_pos.mpr hne
  refine ⟨shortestAux_lt_length g g 0 0 rfl hlen, ?_, ?_, by decide, by decide⟩
  · intro e hemp hbefore
    exact shortestAux_first_empty g e hemp hbefore g 0 0 rfl (Nat.zero_le e)
  · intro hfull
    exact shortestAux_min g hfull g 0 0 rfl hlen
      (fun j hj => absurd hj (Nat.not_lt_zero j))
      (fun j hj => absurd hj (Nat.not_lt_zero j))

/-- C4 witness at the spec's concrete three-column grid. -/
theorem getShortestColumn_spec_witness :
    demoColumns3 ≠ [] ∧ getShortestColumn demoColumns3 < demoColumns3.length :=
  ⟨by decide, (getShortestColumn_spec demoColumns3 (by decide)).1⟩

end Masonry

namespace Masonry

variable {α : Type}


lemma mem_of_get?_eq_some {β : Type} {l : List β} {n : ℕ} {a : β}
    (h : l.get? n = some a) : a ∈ l := by
  rcases List.get?_eq_some.mp h with ⟨hn, he⟩
  exact he ▸ List.get_mem l n hn

lemma chain'_shift (off : ℚ) (l : List (GridItem α))
    (h : l.Chain' (fun a b => b.top = a.bottom)) :
    (l.map (shiftItem off)).Chain' (fun a b => b.top = a.bottom) := by
  rw [List.chain'_map]
  exact List.Chain'.imp (fun a b hab => by simp [shiftItem, hab]) h

lemma geom_shift (g off : ℚ) (x : GridItem α) (h : itemGeomOK g x) :
    itemGeomOK g (shiftItem off x) := by
  unfold itemGeomOK shiftItem at *
  dsimp only
  rw [h]
  ring


def prevOf (col : List (GridItem α)) : ℕ → Option (GridItem α)
  | 0 => none
  | i0 + 1 => col.get? i0

lemma colWF_splice_general (g : ℚ) (col : List (GridItem α)) (i : ℕ)
    (it : GridItem α) (hi : i ≤ col.length)
    (hgeom : itemGeomOK g it)
    (htop : it.top = (match prevOf col i with | some p => p.bottom | none => 0))
    (hwf : colWF g col) :
    colWF g
      (if i + 1 < (col.take i ++ it :: col.drop i).length then
        List.take (i + 1) (col.take i ++ it :: col.drop i) ++
          (List.drop (i + 1) (col.take i ++ it :: col.drop i)).map
            (shiftItem
              ((((col.take i ++ it :: col.drop i).get? i).map GridItem.bottom).getD 0 -
                (((col.take i ++ it :: col.drop i).get? (i + 1)).map GridItem.top).getD 0))
      else col.take i ++ it :: col.drop i) := by
  obtain ⟨hgeomAll, hchain, hhead⟩ := hwf
  have hl1 : (col.take i).length = i := by
    rw [List.length_take]
    omega
  rcases hd : col.drop i with _ | ⟨b, l2'⟩
  · -- the insertion point is the end of the column
    have hieq : i = col.length := by
      have hle := List.drop_eq_nil_iff.mp hd
      omega
    have htake : col.take i = col := by
      rw [hieq, List.take_length]
    rw [htake]
    have hguard : ¬ i + 1 < (col ++ [it]).length := by
      rw [List.length_append]
      simp
      omega
    rw [if_neg hguard]
    refine ⟨?_, ?_, ?_⟩
    · intro x hx
      rcases List.mem_append.mp hx with hx | hx
      · exact hgeomAll x hx
      · rw [List.mem_singleton.mp hx]
        exact hgeom
    · rw [List.chain'_append]
      refine ⟨hchain, List.chain'_singleton it, ?_⟩
      intro x hx y hy
      simp only [List.head?_cons, Option.mem_some_iff] at hy
      subst hy
      cases col with
      | nil => simp at hx
      | cons a tl =>
        have hi0 : i = tl.length + 1 := by
          rw [hieq]
          simp
        rw [Option.mem_def, List.getLast?_eq_get?] at hx
        have hget : (a :: tl).get? tl.length = some x := by
          have hlen : (a :: tl).length - 1 = tl.length := by simp
          rw [← hlen]
          exact hx
        have hpv : prevOf (a :: tl) i = some x := by
          rw [hi0]
          exact hget
        rw [htop, hpv]
    · cases col with
      | nil =>
        show it.top = 0
        rw [htop, hieq]
        rfl
      | cons a tl =>
        exact hhead
  · -- there are items after the insertion point: the shift branch runs
    have hlen2 : i < col.length := by
      by_contra hcon
      rw [List.drop_eq_nil_iff.mpr (by omega)] at hd
      exact List.cons_ne_nil _ _ hd.symm
    have hguard : i + 1 < (List.take i col ++ it :: b :: l2').length := by
      rw [List.length_append, hl1]
      simp only [List.length_cons]
      omega
    rw [if_pos hguard]
    have hgeti : (List.take i col ++ it :: b :: l2').get? i = some it := by
      rw [List.get?_append_right (by rw [hl1])]
      rw [hl1]
      simp
    have hgeti1 : (List.take i col ++ it :: b :: l2').get? (i + 1) = some b := by
      rw [List.get?_append_right (by rw [hl1]; omega)]
      rw [hl1]
      simp
    have htake1 : List.take (i + 1) (List.take i col ++ it :: b :: l2') =
        List.take i col ++ [it] := by
      have h := @List.take_append (GridItem α) (List.take i col) (it :: b :: l2') 1
      rw [hl1] at h
      simpa using h
    have hdrop1 : List.drop (i + 1) (List.take i col ++ it :: b :: l2') =
        b :: l2' := by
      have h := @List.drop_append (GridItem α) (List.take i col) (it :: b :: l2') 1
      rw [hl1] at h
      simpa using h
    rw [hgeti, hgeti1, htake1, hdrop1]
    simp only [Option.map_some', Option.getD_some]
    have hmemdrop : ∀ y, y ∈ b :: l2' → y ∈ col := by
      intro y hy
      rw [← hd] at hy
      exact List.mem_of_mem_drop hy
    refine ⟨?_, ?_, ?_⟩
    · intro x hx
      rcases List.mem_append.mp hx with hx | hx
      · rcases List.mem_append.mp hx with hx | hx
        · exact hgeomAll x (List.mem_of_mem_take hx)
        · rw [List.mem_singleton.mp hx]
          exact hgeom
      · rcases List.mem_map.mp hx with ⟨y, hy, hxy⟩
        rw [← hxy]
        exact geom_shift _ _ y (hgeomAll y (hmemdrop y hy))
    · rw [List.chain'_append]
      refine ⟨?_, ?_, ?_⟩
      · rw [List.chain'_append]
        refine ⟨hchain.take i, List.chain'_singleton it, ?_⟩
        intro x hx y hy
        simp only [List.head?_cons, Option.mem_some_iff] at hy
        subst hy
        rw [Option.mem_def, List.getLast?_take] at hx
        cases i with
        | zero => simp at hx
        | succ i0 =>
          rw [if_neg (Nat.succ_ne_zero i0)] at hx
          have hp : col[i0]? = some x := by
            have hred : i0 + 1 - 1 = i0 := rfl
            rw [hred] at hx
            have hi0 : i0 < col.length := by omega
            rw [List.getElem?_eq_getElem hi0] at hx
            rw [List.getElem?_eq_getElem hi0]
            exact hx
          have hpv : prevOf col (i0 + 1) = some x := by
            show col.get? i0 = some x
            rw [List.get?_eq_getElem?]
            exact hp
          rw [htop, hpv]
      · exact chain'_shift _ _ (hd ▸ hchain.drop i)
      · intro x hx y hy
        rw [Option.mem_def, List.getLast?_concat] at hx
        simp only [List.map_cons, List.head?_cons, Option.mem_some_iff] at hy
        subst hy
        have hxit : x = it := by
          exact (Option.some.inj hx).symm
        subst hxit
        show (shiftItem (x.bottom - b.top) b).top = x.bottom
        unfold shiftItem
        dsimp only
        ring
    · cases i with
      | zero =>
        show it.top = 0
        rw [htop]
        rfl
      | succ i0 =>
        cases col with
        | nil => simp at hlen2
        | cons a tl =>
          exact hhead


lemma placeItem_targeted_wf (cfg : MasonryConfig)
    (grid : List (List (GridItem α))) (info : PendingItem α) (c i : ℕ)
    (col : List (GridItem α)) (prev : Option (GridItem α))
    (hc : grid.get? c = some col) (hi : i ≤ col.length)
    (hprev : prev = prevOf col i)
    (hwf : gridGeomWF cfg.gutterWidth grid) :
    gridGeomWF cfg.gutterWidth
      (placeItem cfg (some c) (some i) prev grid info) := by
  simp only [placeItem, hc]
  intro col' hcol'
  rcases List.mem_or_eq_of_mem_set hcol' with hmem | heq
  · exact hwf col' hmem
  subst heq
  have hcwf : colWF cfg.gutterWidth col := hwf col (mem_of_get?_eq_some hc)
  have htop : (match prev with | some p => p.bottom | none => (0:ℚ)) =
      (match prevOf col i with | some p => p.bottom | none => (0:ℚ)) := by
    rw [hprev]
  rw [htop]
  exact colWF_splice_general cfg.gutterWidth col i _ hi rfl rfl hcwf

lemma placeItem_append_wf (cfg : MasonryConfig)
    (grid : List (List (GridItem α))) (info : PendingItem α)
    (prev : Option (GridItem α))
    (hwf : gridGeomWF cfg.gutterWidth grid) :
    gridGeomWF cfg.gutterWidth (placeItem cfg none none prev grid info) := by
  simp only [placeItem]
  cases hc : grid.get? (getShortestColumn grid) with
  | none => exact hwf
  | some col =>
    intro col' hcol'
    rcases List.mem_or_eq_of_mem_set hcol' with hmem | heq
    · exact hwf col' hmem
    subst heq
    obtain ⟨hgeomAll, hchain, hhead⟩ := hwf col (mem_of_get?_eq_some hc)
    refine ⟨?_, ?_, ?_⟩
    · intro x hx
      rcases List.mem_append.mp hx with hx | hx
      · exact hgeomAll x hx
      · rw [List.mem_singleton.mp hx]
        rfl
    · rw [List.chain'_append]
      refine ⟨hchain, List.chain'_singleton _, ?_⟩
      intro x hx y hy
      simp only [List.head?_cons, Option.mem_some_iff] at hy
      subst hy
      rw [Option.mem_def] at hx
      show (match col.getLast? with | some l => l.bottom | none => (0:ℚ)) = x.bottom
      rw [hx]
    · cases col with
      | nil => rfl
      | cons a tl =>
        exact hhead



lemma colFieldsOK_set (grid : List (List (GridItem α))) (c : ℕ)
    (newcol : List (GridItem α)) (hok : colFieldsOK grid)
    (hmem : ∀ x ∈ newcol, x.column = c) :
    colFieldsOK (grid.set c newcol) := by
  intro j colj hj x hx
  rcases eq_or_ne j c with rfl | hne
  · rw [List.get?_set_eq] at hj
    cases hg : grid.get? j with
    | none =>
      rw [hg] at hj
      simp [Option.map_eq_map] at hj
    | some old =>
      rw [hg] at hj
      simp only [Option.map_eq_map, Option.map_some'] at hj
      have : colj = newcol := by
        cases hj
        rfl
      rw [this] at hx
      exact hmem x hx
  · rw [List.get?_set_ne _ grid hne.symm] at hj
    exact hok j colj hj x hx

lemma mem_col1 {col : List (GridItem α)} {i : ℕ} {it x : GridItem α}
    (hx : x ∈ col.take i ++ it :: col.drop i) : x = it ∨ x ∈ col := by
  rcases List.mem_append.mp hx with hx | hx
  · exact Or.inr (List.mem_of_mem_take hx)
  · rcases List.mem_cons.mp hx with hx | hx
    · exact Or.inl hx
    · exact Or.inr (List.mem_of_mem_drop hx)

lemma placeItem_fields (cfg : MasonryConfig) (colIdx itemIdx : Option ℕ)
    (prev : Option (GridItem α)) (grid : List (List (GridItem α)))
    (info : PendingItem α) (hok : colFieldsOK grid) :
    colFieldsOK (placeItem cfg colIdx itemIdx prev grid info) := by
  have happend : colFieldsOK (placeItem cfg none none prev grid info) := by
    simp only [placeItem]
    cases hc : grid.get? (getShortestColumn grid) with
    | none => exact hok
    | some col =>
      refine colFieldsOK_set grid _ _ hok ?_
      intro x hx
      rcases List.mem_append.mp hx with hx | hx
      · exact hok _ col hc x hx
      · rw [List.mem_singleton.mp hx]
  rcases colIdx with _ | c'
  · rcases itemIdx with _ | i'
    · exact happend
    · exact happend
  rcases itemIdx with _ | i'
  · exact happend
  simp only [placeItem]
  cases hc : grid.get? c' with
  | none => exact hok
  | some col =>
    refine colFieldsOK_set grid _ _ hok ?_
    intro x hx
    have hcolmem : ∀ y ∈ col, y.column = c' := hok c' col hc
    split at hx
    · rcases List.mem_append.mp hx with hx | hx
      · rcases mem_col1 (List.mem_of_mem_take hx) with h | h
        · rw [h]
        · exact hcolmem x h
      · rcases List.mem_map.mp hx with ⟨y, hy, hxy⟩
        rcases mem_col1 (List.mem_of_mem_drop hy) with h | h
        · rw [← hxy, h]
          rfl
        · rw [← hxy]
          exact hcolmem y h
    · rcases mem_col1 hx with h | h
      · rw [h]
      · exact hcolmem x h

lemma placeItem_length (cfg : MasonryConfig) (colIdx itemIdx : Option ℕ)
    (prev : Option (GridItem α)) (grid : List (List (GridItem α)))
    (info : PendingItem α) :
    (placeItem cfg colIdx itemIdx prev grid info).length = grid.length := by
  have happend :
      (placeItem cfg none none prev grid info).length = grid.length := by
    simp only [placeItem]
    cases hc : grid.get? (getShortestColumn grid) with
    | none => rfl
    | some col => exact List.length_set grid _ _
  rcases colIdx with _ | c'
  · rcases itemIdx with _ | i'
    · exact happend
    · exact happend
  rcases itemIdx with _ | i'
  · exact happend
  simp only [placeItem]
  cases hc : grid.get? c' with
  | none => rfl
  | some col => exact List.length_set grid _ _


end Masonry

namespace Masonry

variable {α : Type}


/-- The effective `itemKeyCounter` at the start of an `insertItems` call
(`this.itemKeyCounter = this.itemKeyCounter || 1`). -/
def effCounter (st : MasonryState α) : ℕ :=
  if st.itemKeyCounter = 0 then 1 else st.itemKeyCounter

/-- The column-array initialisation at the head of `insertItems`. -/
def initGrid (cfg : MasonryConfig) (grid : List (List (GridItem α))) :
    List (List (GridItem α)) :=
  if grid.isEmpty then List.replicate cfg.columnCount [] else grid

/-- The captured `previousItemInColumn`. -/
def insertPrev (st : MasonryState α) (colIdx itemIdx : Option ℕ)
    (force : Bool) : Option (GridItem α) :=
  match colIdx, itemIdx with
  | some c, some i =>
    match i with
    | 0 => none
    | i0 + 1 => ((if force then [] else st.gridItems).get? c).bind
        (fun col => col.get? i0)
  | _, _ => none

lemma insertItems_gridItems_eq (cfg : MasonryConfig) (st : MasonryState α)
    (newItems : List (α × ℚ)) (colIdx itemIdx : Option ℕ) (force : Bool) :
    (insertItems cfg st newItems colIdx itemIdx force).gridItems =
      (buildItemInfos cfg (colIdx.isSome && itemIdx.isSome)
        (insertPrev st colIdx itemIdx force)
        (effCounter st)
        (if force then newItems else newItems.take maxItemsPerInsertion)).1.foldl
        (placeItem cfg colIdx itemIdx (insertPrev st colIdx itemIdx force))
        (initGrid cfg (if force then [] else st.gridItems)) := rfl

lemma foldl_placeItem_wf (cfg : MasonryConfig) (prev : Option (GridItem α))
    (infos : List (PendingItem α)) :
    ∀ grid, gridGeomWF cfg.gutterWidth grid →
      gridGeomWF cfg.gutterWidth
        (infos.foldl (placeItem cfg none none prev) grid) := by
  induction infos with
  | nil => exact fun grid h => h
  | cons info rest ih =>
    intro grid h
    exact ih _ (placeItem_append_wf cfg grid info prev h)

lemma foldl_placeItem_fields (cfg : MasonryConfig)
    (colIdx itemIdx : Option ℕ) (prev : Option (GridItem α))
    (infos : List (PendingItem α)) :
    ∀ grid, colFieldsOK grid →
      colFieldsOK (infos.foldl (placeItem cfg colIdx itemIdx prev) grid) := by
  induction infos with
  | nil => exact fun grid h => h
  | cons info rest ih =>
    intro grid h
    exact ih _ (placeItem_fields cfg colIdx itemIdx prev grid info h)

lemma foldl_placeItem_length (cfg : MasonryConfig)
    (colIdx itemIdx : Option ℕ) (prev : Option (GridItem α))
    (infos : List (PendingItem α)) :
    ∀ grid, (infos.foldl (placeItem cfg colIdx itemIdx prev) grid).length =
      grid.length := by
  induction infos with
  | nil => exact fun grid => rfl
  | cons info rest ih =>
    intro grid
    rw [List.foldl_cons, ih, placeItem_length]

lemma gridGeomWF_initGrid (cfg : MasonryConfig)
    (grid : List (List (GridItem α)))
    (h : gridGeomWF cfg.gutterWidth grid) :
    gridGeomWF cfg.gutterWidth (initGrid cfg grid) := by
  unfold initGrid
  split
  · intro col hcol
    rw [List.eq_of_mem_replicate hcol]
    exact ⟨fun it hit => absurd hit (List.not_mem_nil it),
      List.chain'_nil, rfl⟩
  · exact h

lemma colFieldsOK_initGrid (cfg : MasonryConfig)
    (grid : List (List (GridItem α))) (h : colFieldsOK grid) :
    colFieldsOK (initGrid cfg grid) := by
  unfold initGrid
  split
  · intro j colj hj x hx
    rw [List.eq_of_mem_replicate (mem_of_get?_eq_some hj)] at hx
    exact absurd hx (List.not_mem_nil x)
  · exact h

lemma placeItem_targeted_skip (cfg : MasonryConfig) (c i : ℕ)
    (prev : Option (GridItem α)) (grid : List (List (GridItem α)))
    (info : PendingItem α) (hc : grid.get? c = none) :
    placeItem cfg (some c) (some i) prev grid info = grid := by
  simp only [placeItem, hc]

lemma insertPrev_eq_prevOf (cfg : MasonryConfig) (st : MasonryState α)
    (c i : ℕ) (col : List (GridItem α))
    (hcol : (initGrid cfg st.gridItems).get? c = some col) :
    insertPrev st (some c) (some i) false = prevOf col i := by
  cases i with
  | zero => rfl
  | succ i0 =>
    show (st.gridItems.get? c).bind (fun col => col.get? i0) = col.get? i0
    unfold initGrid at hcol
    by_cases hemp : st.gridItems.isEmpty
    · rw [if_pos hemp] at hcol
      have hnil : col = [] := (List.eq_of_mem_replicate (mem_of_get?_eq_some hcol)).symm ▸ rfl
      have hsnil : st.gridItems = [] := List.isEmpty_iff.mp hemp
      rw [hsnil, hnil]
      rfl
    · rw [if_neg hemp] at hcol
      rw [hcol, Option.some_bind]

lemma colWF_no_overlap (g : ℚ) (col : List (GridItem α))
    (h : colWF g col) :
    (∀ j a b, col.get? j = some a → col.get? (j + 1) = some b →
      a.bottom ≤ b.top) ∧
    (∀ it ∈ col, it.bottom = it.top + it.height + g) := by
  obtain ⟨hgeom, hchain, _⟩ := h
  refine ⟨?_, hgeom⟩
  intro j a b ha hb
  rcases List.get?_eq_some.mp ha with ⟨hja, hga⟩
  rcases List.get?_eq_some.mp hb with ⟨hjb, hgb⟩
  have := List.chain'_iff_get.mp hchain j (by omega)
  rw [hga, hgb] at this
  exact le_of_eq this.symm



/-- C2: after a completed insert operation — a shortest-column append
(also the forced-rebuild replay, which appends item by item) or a
mid-column insertion with a valid target and its downstream shift — in
every column each adjacent pair satisfies `bottom ≤ top` of the next
item, and every item satisfies `bottom = top + height + gutterWidth`.
The grid is assumed well formed before the call (the property the
operations themselves maintain); an insertion targeting an index past
the end of a column is not an insert operation of the source's design
and does not preserve the invariant (see the C5 analysis). -/
theorem insert_no_overlap (cfg : MasonryConfig) (st : MasonryState α)
    (newItems : List (α × ℚ)) (colIdx itemIdx : Option ℕ) (force : Bool)
    (hwf : gridGeomWF cfg.gutterWidth st.gridItems)
    (hmode : (colIdx = none ∧ itemIdx = none) ∨
      (force = false ∧ ∃ c i, colIdx = some c ∧ itemIdx = some i ∧
        insertTargetValid cfg st c i)) :
    ∀ col ∈ (insertItems cfg st newItems colIdx itemIdx force).gridItems,
      (∀ j a b, col.get? j = some a → col.get? (j + 1) = some b →
        a.bottom ≤ b.top) ∧
      (∀ it ∈ col, it.bottom = it.top + it.height + cfg.gutterWidth) := by
  have hinit : gridGeomWF cfg.gutterWidth
      (initGrid cfg (if force then [] else st.gridItems)) := by
    cases force
    · exact gridGeomWF_initGrid cfg _ hwf
    · exact gridGeomWF_initGrid cfg _
        (fun col hcol => absurd hcol (List.not_mem_nil col))
  have hwf2 : gridGeomWF cfg.gutterWidth
      (insertItems cfg st newItems colIdx itemIdx force).gridItems := by
    rw [insertItems_gridItems_eq]
    rcases hmode with ⟨hcn, hin⟩ | ⟨hf, c, i, hcs, his, hvalid⟩
    · subst hcn
      subst hin
      exact foldl_placeItem_wf cfg _ _ _ hinit
    · subst hcs
      subst his
      subst hf
      rcases newItems with _ | ⟨⟨d, ht⟩, rest⟩
    
      · exact hinit
      · simp only [maxItemsPerInsertion, List.take_succ_cons, List.take_zero,
          buildItemInfos, List.foldl_cons, List.foldl_nil]
        cases hget : (initGrid cfg st.gridItems).get? c with
        | none =>
          rw [if_neg (Bool.false_ne_true)] at *
          rw [placeItem_targeted_skip cfg c i _ _ _ ?hc]
          · exact hinit
          case hc =>
            show (initGrid cfg st.gridItems).get? c = none
            exact hget
        | some col =>
          rw [insertPrev_eq_prevOf cfg st c i col hget]
          refine placeItem_targeted_wf cfg _ _ c i col (prevOf col i)
            ?_ (hvalid col hget) rfl ?_
          · show (initGrid cfg st.gridItems).get? c = some col
            exact hget
          · show gridGeomWF cfg.gutterWidth (initGrid cfg st.gridItems)
            exact gridGeomWF_initGrid cfg _ hwf
  intro col hcol
  exact colWF_no_overlap cfg.gutterWidth col (hwf2 col hcol)



/-- C9: after every `insertItems` call — append, mid-column insertion
(valid or not), or forced rebuild — the grid holds exactly
`columnCount` column arrays, each item's `column` field equals the
index of the column array holding it, and an item value belongs to at
most one column array (the shift only rewrites `top`/`bottom`, never
the column). -/
theorem insert_column_partition (cfg : MasonryConfig) (st : MasonryState α)
    (newItems : List (α × ℚ)) (colIdx itemIdx : Option ℕ) (force : Bool)
    (hpre : force = true ∨ st.gridItems = [] ∨
      (st.gridItems.length = cfg.columnCount ∧ colFieldsOK st.gridItems)) :
    (insertItems cfg st newItems colIdx itemIdx force).gridItems.length =
      cfg.columnCount ∧
    (∀ j colj,
      (insertItems cfg st newItems colIdx itemIdx force).gridItems.get? j =
        some colj → ∀ it ∈ colj, it.column = j) ∧
    (∀ j k colj colk it,
      (insertItems cfg st newItems colIdx itemIdx force).gridItems.get? j =
        some colj →
      (insertItems cfg st newItems colIdx itemIdx force).gridItems.get? k =
        some colk → it ∈ colj → it ∈ colk → j = k) := by
  have hinitlen : (initGrid cfg (if force then [] else st.gridItems)).length =
      cfg.columnCount := by
    rcases hpre with hf | hemp | ⟨hlen, _⟩
    · rw [hf]
      show (List.replicate cfg.columnCount ([] : List (GridItem α))).length =
        cfg.columnCount
      exact List.length_replicate _ _
    · cases force
      · show (initGrid cfg st.gridItems).length = cfg.columnCount
        rw [hemp]
        exact List.length_replicate _ _
      · exact List.length_replicate _ _
    · cases force
      · show (initGrid cfg st.gridItems).length = cfg.columnCount
        unfold initGrid
        by_cases hemp : st.gridItems.isEmpty
        · rw [if_pos hemp]
          exact List.length_replicate _ _
        · rw [if_neg hemp]
          exact hlen
      · exact List.length_replicate _ _
  have hinitfields : colFieldsOK
      (initGrid cfg (if force then [] else st.gridItems)) := by
    have hnilOK : colFieldsOK ([] : List (List (GridItem α))) := by
      intro j colj hj
      simp at hj
    rcases hpre with hf | hemp | ⟨_, hfields⟩
    · rw [hf]
      exact colFieldsOK_initGrid cfg [] hnilOK
    · cases force
      · show colFieldsOK (initGrid cfg st.gridItems)
        rw [hemp]
        exact colFieldsOK_initGrid cfg [] hnilOK
      · exact colFieldsOK_initGrid cfg [] hnilOK
    · cases force
      · exact colFieldsOK_initGrid cfg st.gridItems hfields
      · exact colFieldsOK_initGrid cfg [] hnilOK
  have hlen : (insertItems cfg st newItems colIdx itemIdx force).gridItems.length =
      cfg.columnCount := by
    rw [insertItems_gridItems_eq, foldl_placeItem_length]
    exact hinitlen
  have hfields : colFieldsOK
      (insertItems cfg st newItems colIdx itemIdx force).gridItems := by
    rw [insertItems_gridItems_eq]
    exact foldl_placeItem_fields cfg _ _ _ _ _ hinitfields
  refine ⟨hlen, hfields, ?_⟩
  intro j k colj colk it hj hk hitj hitk
  have h1 := hfields j colj hj it hitj
  have h2 := hfields k colk hk it hitk
  omega



lemma splice_result_eq (g : ℚ) (col : List (GridItem α)) (i : ℕ)
    (it : GridItem α) (hi : i ≤ col.length)
    (hbot : it.bottom = it.top + it.height + g)
    (htop : it.top = (match prevOf col i with
      | some p => p.bottom
      | none => 0))
    (hwf : colWF g col) :
    (if i + 1 < (col.take i ++ it :: col.drop i).length then
        List.take (i + 1) (col.take i ++ it :: col.drop i) ++
          (List.drop (i + 1) (col.take i ++ it :: col.drop i)).map
            (shiftItem
              ((((col.take i ++ it :: col.drop i).get? i).map
                  GridItem.bottom).getD 0 -
                (((col.take i ++ it :: col.drop i).get? (i + 1)).map
                  GridItem.top).getD 0))
      else col.take i ++ it :: col.drop i) =
      col.take i ++ it :: (col.drop i).map (shiftItem (it.height + g)) := by
  obtain ⟨hgeomAll, hchain, hhead⟩ := hwf
  have hl1 : (col.take i).length = i := by
    rw [List.length_take]
    omega
  rcases hd : col.drop i with _ | ⟨b, l2'⟩
  · have hguard : ¬ i + 1 < (col.take i ++ [it]).length := by
      rw [List.length_append, hl1]
      simp
    rw [if_neg hguard]
    rfl
  · have hlen2 : i < col.length := by
      by_contra hcon
      rw [List.drop_eq_nil_iff.mpr (by omega)] at hd
      exact List.cons_ne_nil _ _ hd.symm
    have hguard : i + 1 < (List.take i col ++ it :: b :: l2').length := by
      rw [List.length_append, hl1]
      simp only [List.length_cons]
      omega
    rw [if_pos hguard]
    have hgeti : (List.take i col ++ it :: b :: l2').get? i = some it := by
      rw [List.get?_append_right (by rw [hl1])]
      rw [hl1]
      simp
    have hgeti1 : (List.take i col ++ it :: b :: l2').get? (i + 1) = some b := by
      rw [List.get?_append_right (by rw [hl1]; omega)]
      rw [hl1]
      simp
    have htake1 : List.take (i + 1) (List.take i col ++ it :: b :: l2') =
        List.take i col ++ [it] := by
      have h := @List.take_append (GridItem α) (List.take i col) (it :: b :: l2') 1
      rw [hl1] at h
      simpa using h
    have hdrop1 : List.drop (i + 1) (List.take i col ++ it :: b :: l2') =
        b :: l2' := by
      have h := @List.drop_append (GridItem α) (List.take i col) (it :: b :: l2') 1
      rw [hl1] at h
      simpa using h
    rw [hgeti, hgeti1, htake1, hdrop1]
    simp only [Option.map_some', Option.getD_some]
    -- the physical successor starts exactly at the insertion point
    have hbtop : b.top = it.top := by
      cases i with
      | zero =>
        have hcol : col = b :: l2' := by
          rw [← hd]
          rfl
        have hb : b.top = 0 := by
          have := hhead
          rw [hcol] at this
          exact this
        rw [hb, htop]
        rfl
      | succ i0 =>
        have hgi : col.get? (i0 + 1) = some b := drop_cons_getElem hd
        have hi0lt : i0 < col.length := by omega
        have hp : col.get? i0 = some col[i0] := by
          rw [List.get?_eq_getElem?, List.getElem?_eq_getElem hi0lt]
        have hpv : prevOf col (i0 + 1) = some col[i0] := hp
        have hchainstep := List.chain'_iff_get.mp hchain i0 (by
          rcases List.get?_eq_some.mp hgi with ⟨hlt, _⟩
          omega)
        rcases List.get?_eq_some.mp hgi with ⟨hlt, hgb⟩
        rw [htop, hpv]
        show b.top = col[i0].bottom
        rw [← hgb]
        have hget0 : col[i0] = col.get ⟨i0, hi0lt⟩ := rfl
        rw [hget0]
        exact hchainstep
    have hoff : it.bottom - b.top = it.height + g := by
      rw [hbot, hbtop]
      ring
    rw [hoff, List.append_assoc]
    rfl



lemma insertItems_targeted_single_eq (cfg : MasonryConfig)
    (st : MasonryState α) (d : α) (ht : ℚ) (rest : List (α × ℚ)) (c i : ℕ) :
    (insertItems cfg st ((d, ht) :: rest) (some c) (some i) false).gridItems =
      placeItem cfg (some c) (some i) (insertPrev st (some c) (some i) false)
        (initGrid cfg st.gridItems)
        { key := (match insertPrev st (some c) (some i) false with
            | some p => ((parseIntTrunc p.key : ℤ) : ℚ) +
                ((effCounter st % 10000 : ℕ) : ℚ) / 1000
            | none => ((effCounter st % 10000 : ℕ) : ℚ) / 1000),
          itemData := d, width := cfg.itemWidth, height := ht } := rfl

/-- C3 (amended): a targeted `insertItems` call takes at most
`MAX_ITEMS_PER_INSERTION = 1` of its batch.  The first item is spliced
at `targetIndex` into the target column; its `top` is the predecessor's
`bottom` (0 when inserting at index 0); its key is
`parseInt(predecessor.key) + (itemKeyCounter % 10000)/1000` (no
predecessor: just the decimal part); and every item previously at or
after `targetIndex` in that column shifts down by exactly
`height + gutterWidth`.  All other columns are unchanged. -/
theorem insertItems_single_spec (cfg : MasonryConfig) (st : MasonryState α)
    (d : α) (ht : ℚ) (rest : List (α × ℚ)) (c i : ℕ)
    (col : List (GridItem α))
    (hne : st.gridItems ≠ [])
    (hc : st.gridItems.get? c = some col)
    (hi : i ≤ col.length)
    (hwf : colWF cfg.gutterWidth col) :
    (insertItems cfg st ((d, ht) :: rest) (some c) (some i) false).gridItems =
      st.gridItems.set c
        (col.take i ++
          { key := (match prevOf col i with
              | some p => ((parseIntTrunc p.key : ℤ) : ℚ) +
                  ((effCounter st % 10000 : ℕ) : ℚ) / 1000
              | none => ((effCounter st % 10000 : ℕ) : ℚ) / 1000),
            itemData := d, column := c, width := cfg.itemWidth, height := ht,
            left := (c : ℚ) * cfg.itemWidth,
            top := (match prevOf col i with
              | some p => p.bottom
              | none => 0),
            bottom := (match prevOf col i with
              | some p => p.bottom
              | none => 0) + ht + cfg.gutterWidth,
            appended := false } ::
          (col.drop i).map (shiftItem (ht + cfg.gutterWidth))) := by
  have hemp : ¬ st.gridItems.isEmpty = true := by
    rw [List.isEmpty_iff]
    exact hne
  have hinit : initGrid cfg st.gridItems = st.gridItems := by
    unfold initGrid
    rw [if_neg hemp]
  have hprev : insertPrev st (some c) (some i) false = prevOf col i :=
    insertPrev_eq_prevOf cfg st c i col (by rw [hinit]; exact hc)
  rw [insertItems_targeted_single_eq, hprev, hinit]
  simp only [placeItem, hc]
  congr 1
  have h := splice_result_eq cfg.gutterWidth col i
    { key := (match prevOf col i with
        | some p => ((parseIntTrunc p.key : ℤ) : ℚ) +
            ((effCounter st % 10000 : ℕ) : ℚ) / 1000
        | none => ((effCounter st % 10000 : ℕ) : ℚ) / 1000),
      itemData := d, column := c, width := cfg.itemWidth, height := ht,
      left := (c : ℚ) * cfg.itemWidth,
      top := (match prevOf col i with
        | some p => p.bottom
        | none => 0),
      bottom := (match prevOf col i with
        | some p => p.bottom
        | none => 0) + ht + cfg.gutterWidth,
      appended := false } hi rfl rfl hwf
  exact h



/-- C5 (amended): `insertItems` into a column that does not exist is a
no-op on the grid.  But an out-of-range item index in an existing
column is NOT a no-op: the splice clamps to the end of the column and
the item is appended there with `top = 0` (its `previousItemInColumn`
lookup finds nothing). -/
theorem insertItems_invalid_target (cfg : MasonryConfig)
    (st : MasonryState α) (d : α) (ht : ℚ) (rest : List (α × ℚ)) (c i : ℕ)
    (hne : st.gridItems ≠ []) :
    (st.gridItems.get? c = none →
      (insertItems cfg st ((d, ht) :: rest) (some c) (some i) false).gridItems =
        st.gridItems) ∧
    (∀ col, st.gridItems.get? c = some col → col.length + 1 ≤ i →
      (insertItems cfg st ((d, ht) :: rest) (some c) (some i) false).gridItems =
        st.gridItems.set c (col ++
          [{ key := ((effCounter st % 10000 : ℕ) : ℚ) / 1000, itemData := d,
             column := c, width := cfg.itemWidth, height := ht,
             left := (c : ℚ) * cfg.itemWidth,
             top := 0, bottom := 0 + ht + cfg.gutterWidth,
             appended := false }])) := by
  have hemp : ¬ st.gridItems.isEmpty = true := by
    rw [List.isEmpty_iff]
    exact hne
  have hinit : initGrid cfg st.gridItems = st.gridItems := by
    unfold initGrid
    rw [if_neg hemp]
  constructor
  · intro hc
    rw [insertItems_targeted_single_eq, hinit,
      placeItem_targeted_skip cfg c i _ _ _ hc]
  · intro col hc hlen
    obtain ⟨i0, rfl⟩ : ∃ i0, i = i0 + 1 := ⟨i - 1, by omega⟩
    have hprev : insertPrev st (some c) (some (i0 + 1)) false = none := by
      show (st.gridItems.get? c).bind (fun col => col.get? i0) = none
      rw [hc, Option.some_bind]
      rw [List.get?_eq_getElem?, List.getElem?_eq_none]
      omega
    rw [insertItems_targeted_single_eq, hinit, hprev]
    simp only [placeItem, hc]
    congr 1
    have htake : col.take (i0 + 1) = col := List.take_of_length_le (by omega)
    have hdrop : col.drop (i0 + 1) = [] := List.drop_eq_nil_iff.mpr (by omega)
    rw [htake, hdrop]
    rw [if_neg (by rw [List.length_append]; simp; omega)]

/-- C5 witness: inserting into non-existent column 3 leaves the grid
unchanged. -/
theorem insertItems_invalid_target_witness :
    stA.gridItems ≠ [] ∧ stA.gridItems.get? 3 = none ∧
    (insertItems cfg1 stA [(9, 5)] (some 3) (some 0) false).gridItems =
      stA.gridItems :=
  ⟨by decide, by decide,
    (insertItems_invalid_target cfg1 stA 9 5 [] 3 0 (by decide)).1 (by decide)⟩

/-- C5 counterexample: an insertion at index 5 of a 1-item column is
not a no-op — the column grows to 2 items, refuting the claimed
no-op for a target index that does not exist. -/
theorem insertItems_invalid_index_not_noop :
    ((insertItems cfg1 stA [(9, 5)] (some 0) (some 5) false).gridItems.get? 0).map
      List.length = some 2 ∧
    (insertItems cfg1 stA [(9, 5)] (some 0) (some 5) false).gridItems ≠
      stA.gridItems := by decide

/-- C3 counterexample: a batch of two items at a valid target inserts
only the first one — the second item does not end up at
`targetIndex + 1` (position 2 does not exist; the column has 2 items,
not 3), refuting the claim that the j-th batch item lands at
`targetIndex + j`. -/
theorem insertItems_batch_counterexample :
    ((insertItems cfg1 stA [(7, 5), (8, 5)] (some 0) (some 1) false).gridItems.get? 0).bind
      (fun l => l.get? 2) = none ∧
    ((insertItems cfg1 stA [(7, 5), (8, 5)] (some 0) (some 1) false).gridItems.get? 0).map
      List.length = some 2 := by decide



/-- C2 witness: a valid mid-column insertion into the one-column demo
grid. -/
theorem insert_no_overlap_witness :
    gridGeomWF cfg1.gutterWidth stA.gridItems ∧
    ∀ col ∈ (insertItems cfg1 stA [(1, 5)] (some 0) (some 1) false).gridItems,
      (∀ j a b, col.get? j = some a → col.get? (j + 1) = some b →
        a.bottom ≤ b.top) ∧
      (∀ it ∈ col, it.bottom = it.top + it.height + cfg1.gutterWidth) :=
  ⟨by decide,
    insert_no_overlap cfg1 stA [(1, 5)] (some 0) (some 1) false (by decide)
      (Or.inr ⟨rfl, 0, 1, rfl, rfl, by decide⟩)⟩

/-- C9 witness: an append into the one-column demo grid. -/
theorem insert_column_partition_witness :
    (stA.gridItems.length = cfg1.columnCount ∧ colFieldsOK stA.gridItems) ∧
    ((insertItems cfg1 stA [(3, 4)] none none false).gridItems.length =
      cfg1.columnCount ∧
    (∀ j colj,
      (insertItems cfg1 stA [(3, 4)] none none false).gridItems.get? j =
        some colj → ∀ it ∈ colj, it.column = j) ∧
    (∀ j k colj colk it,
      (insertItems cfg1 stA [(3, 4)] none none false).gridItems.get? j =
        some colj →
      (insertItems cfg1 stA [(3, 4)] none none false).gridItems.get? k =
        some colk → it ∈ colj → it ∈ colk → j = k)) :=
  ⟨⟨by decide, by decide⟩,
    insert_column_partition cfg1 stA [(3, 4)] none none false
      (Or.inr (Or.inr ⟨by decide, by decide⟩))⟩

/-- The single item of column 0 of `stA`. -/
def colA : List (GridItem ℕ) :=
  [{ key := 1, itemData := 0, column := 0, width := 10, height := 5,
     left := 0, top := 0, bottom := 7, appended := true }]

/-- C3 witness: inserting one item at index 1 of the one-column demo
grid. -/
theorem insertItems_single_spec_witness :
    (stA.gridItems ≠ [] ∧ stA.gridItems.get? 0 = some colA ∧
      1 ≤ colA.length ∧ colWF cfg1.gutterWidth colA) ∧
    (insertItems cfg1 stA [(1, 5)] (some 0) (some 1) false).gridItems =
      stA.gridItems.set 0
        (colA.take 1 ++
          { key := (match prevOf colA 1 with
              | some p => ((parseIntTrunc p.key : ℤ) : ℚ) +
                  ((effCounter stA % 10000 : ℕ) : ℚ) / 1000
              | none => ((effCounter stA % 10000 : ℕ) : ℚ) / 1000),
            itemData := 1, column := 0, width := cfg1.itemWidth, height := 5,
            left := (0 : ℚ) * cfg1.itemWidth,
            top := (match prevOf colA 1 with
              | some p => p.bottom
              | none => 0),
            bottom := (match prevOf colA 1 with
              | some p => p.bottom
              | none => 0) + 5 + cfg1.gutterWidth,
            appended := false } ::
          (colA.drop 1).map (shiftItem (5 + cfg1.gutterWidth))) :=
  ⟨⟨by decide, by decide, by decide, by decide⟩,
    insertItems_single_spec cfg1 stA 1 5 [] 0 1 colA (by decide) (by decide)
      (by decide) (by decide)⟩


end Masonry

namespace Masonry

variable {α : Type}


lemma allItems_eq_flatten (st : MasonryState α) :
    allItems st = st.gridItems.flatten := by
  unfold allItems
  split
  · rename_i h
    rw [List.isEmpty_iff.mp h]
    rfl
  · rfl

lemma flatten_replicate_nil (n : ℕ) :
    (List.replicate n ([] : List (GridItem α))).flatten = [] := by
  induction n with
  | zero => rfl
  | succ m ih =>
    rw [List.replicate_succ, List.flatten_cons, ih]
    rfl

lemma flatten_set_append_perm {γ : Type} (grid : List (List γ)) (c : ℕ)
    (col : List γ) (x : γ) (hc : grid.get? c = some col) :
    ((grid.set c (col ++ [x])).flatten).Perm (x :: grid.flatten) := by
  have hlt : c < grid.length := (List.get?_eq_some.mp hc).1
  have hgc : grid[c] = col := by
    have h := hc
    rw [List.get?_eq_getElem?, List.getElem?_eq_getElem hlt] at h
    exact Option.some.inj h
  have hdecomp : grid = grid.take c ++ col :: grid.drop (c + 1) := by
    rw [← hgc, ← List.drop_eq_getElem_cons hlt, List.take_append_drop]
  have hset : grid.set c (col ++ [x]) =
      grid.take c ++ (col ++ [x]) :: grid.drop (c + 1) := by
    rw [List.set_eq_take_append_cons_drop, if_pos hlt]
  rw [hset]
  conv_rhs => rw [hdecomp]
  simp only [List.flatten_append, List.flatten_cons]
  have hL : (grid.take c).flatten ++ ((col ++ [x]) ++ (grid.drop (c + 1)).flatten) =
      ((grid.take c).flatten ++ col) ++ (x :: (grid.drop (c + 1)).flatten) := by
    simp [List.append_assoc]
  have hR : (grid.take c).flatten ++ (col ++ (grid.drop (c + 1)).flatten) =
      ((grid.take c).flatten ++ col) ++ (grid.drop (c + 1)).flatten := by
    rw [List.append_assoc]
  rw [hL, hR]
  exact List.perm_middle



lemma insertItems_append_single_eq (cfg : MasonryConfig)
    (st : MasonryState α) (d : α) (ht : ℚ) (rest : List (α × ℚ)) :
    (insertItems cfg st ((d, ht) :: rest) none none false).gridItems =
      placeItem cfg none none none (initGrid cfg st.gridItems)
        { key := ((effCounter st : ℕ) : ℚ), itemData := d,
          width := cfg.itemWidth, height := ht } := rfl

lemma insertItems_append_single_counter (cfg : MasonryConfig)
    (st : MasonryState α) (d : α) (ht : ℚ) (rest : List (α × ℚ)) :
    (insertItems cfg st ((d, ht) :: rest) none none false).itemKeyCounter =
      effCounter st + 1 := rfl

lemma initGrid_length (cfg : MasonryConfig)
    (grid : List (List (GridItem α)))
    (h : grid = [] ∨ grid.length = cfg.columnCount) :
    (initGrid cfg grid).length = cfg.columnCount := by
  unfold initGrid
  rcases h with rfl | hlen
  · simp
  · by_cases hemp : grid.isEmpty
    · rw [if_pos hemp]
      exact List.length_replicate _ _
    · rw [if_neg hemp]
      exact hlen

lemma append_single_step (cfg : MasonryConfig) (st : MasonryState α)
    (d : α) (ht : ℚ) (rest : List (α × ℚ))
    (hcc : 1 ≤ cfg.columnCount)
    (hlen : st.gridItems = [] ∨ st.gridItems.length = cfg.columnCount) :
    ((allItems (insertItems cfg st ((d, ht) :: rest) none none false)).map
        keyData).Perm
      ((((effCounter st : ℕ) : ℚ), d) :: (allItems st).map keyData) ∧
    (insertItems cfg st ((d, ht) :: rest) none none false).gridItems.length =
      cfg.columnCount := by
  have hinitlen : (initGrid cfg st.gridItems).length = cfg.columnCount :=
    initGrid_length cfg st.gridItems hlen
  have hshort : getShortestColumn (initGrid cfg st.gridItems) <
      (initGrid cfg st.gridItems).length := by
    refine shortestAux_lt_length _ _ 0 0 rfl ?_
    omega
  obtain ⟨col, hcol⟩ : ∃ col,
      (initGrid cfg st.gridItems).get?
        (getShortestColumn (initGrid cfg st.gridItems)) = some col := by
    have hsome : ((initGrid cfg st.gridItems).get?
        (getShortestColumn (initGrid cfg st.gridItems))).isSome := by
      rw [List.get?_eq_getElem?, List.getElem?_eq_getElem hshort]
      rfl
    exact Option.isSome_iff_exists.mp hsome
  have hflatinit : (initGrid cfg st.gridItems).flatten =
      st.gridItems.flatten := by
    unfold initGrid
    by_cases hemp : st.gridItems.isEmpty
    · rw [if_pos hemp, List.isEmpty_iff.mp hemp, flatten_replicate_nil]
      rfl
    · rw [if_neg hemp]
  constructor
  · rw [allItems_eq_flatten, allItems_eq_flatten, insertItems_append_single_eq]
    simp only [placeItem, hcol]
    have hperm := flatten_set_append_perm (initGrid cfg st.gridItems)
      (getShortestColumn (initGrid cfg st.gridItems)) col
      { key := ((effCounter st : ℕ) : ℚ), itemData := d,
        column := getShortestColumn (initGrid cfg st.gridItems),
        width := cfg.itemWidth, height := ht,
        left := ((getShortestColumn (initGrid cfg st.gridItems) : ℕ) : ℚ) *
          cfg.itemWidth,
        top := (match col.getLast? with | some l => l.bottom | none => 0),
        bottom := (match col.getLast? with
          | some l => l.bottom
          | none => 0) + ht + cfg.gutterWidth,
        appended := true } hcol
    have h2 := hperm.map keyData
    rw [hflatinit] at h2
    exact h2
  · rw [insertItems_append_single_eq]
    simp only [placeItem, hcol]
    rw [List.length_set]
    exact hinitlen



lemma tagged_map_snd (feed : List (α × ℚ)) :
    ∀ k, (tagged k feed).map Prod.snd = feed.map Prod.fst := by
  induction feed with
  | nil => intro k; rfl
  | cons p rest ih =>
    intro k
    cases p with
    | mk d ht =>
      show (((k + 1 : ℕ) : ℚ), d).2 :: (tagged (k + 1) rest).map Prod.snd =
        d :: rest.map Prod.fst
      rw [ih (k + 1)]

lemma tagged_key_gt (feed : List (α × ℚ)) :
    ∀ k, ∀ p ∈ tagged k feed, (k : ℚ) < p.1 := by
  induction feed with
  | nil =>
    intro k p hp
    exact absurd hp (List.not_mem_nil p)
  | cons q rest ih =>
    intro k p hp
    cases q with
    | mk d ht =>
      rcases List.mem_cons.mp hp with rfl | hp
      · show (k : ℚ) < ((k + 1 : ℕ) : ℚ)
        push_cast
        linarith
      · have := ih (k + 1) p hp
        have hk : (k : ℚ) < ((k + 1 : ℕ) : ℚ) := by
          push_cast
          linarith
        linarith
lemma tagged_pairwise (feed : List (α × ℚ)) :
    ∀ k, (tagged k feed).Pairwise (fun a b => a.1 < b.1) := by
  induction feed with
  | nil => intro k; exact List.Pairwise.nil
  | cons q rest ih =>
    intro k
    cases q with
    | mk d ht =>
      refine List.Pairwise.cons ?_ (ih (k + 1))
      intro p hp
      exact tagged_key_gt rest (k + 1) p hp

lemma appendFeed_perm (cfg : MasonryConfig) (hcc : 1 ≤ cfg.columnCount) :
    ∀ (feed : List (α × ℚ)) (st : MasonryState α) (k : ℕ),
      effCounter st = k + 1 →
      (st.gridItems = [] ∨ st.gridItems.length = cfg.columnCount) →
      ((allItems (appendFeed cfg st feed)).map keyData).Perm
        (tagged k feed ++ (allItems st).map keyData) := by
  intro feed
  induction feed with
  | nil =>
    intro st k hk hlen
    exact List.Perm.refl _
  | cons q rest ih =>
    intro st k hk hlen
    cases q with
    | mk d ht =>
      have hstep := append_single_step cfg st d ht [] hcc hlen
      set st1 := insertItems cfg st [(d, ht)] none none false with hst1
      have hk1 : effCounter st1 = (k + 1) + 1 := by
        show (if st1.itemKeyCounter = 0 then 1 else st1.itemKeyCounter) = k + 2
        have hc1 : st1.itemKeyCounter = effCounter st + 1 :=
          insertItems_append_single_counter cfg st d ht []
        rw [hc1, hk, if_neg (by omega : ¬ k + 1 + 1 = 0)]
      have hlen1 : st1.gridItems = [] ∨ st1.gridItems.length = cfg.columnCount :=
        Or.inr hstep.2
      have hih := ih st1 (k + 1) hk1 hlen1
      show ((allItems (appendFeed cfg st1 rest)).map keyData).Perm
        (tagged k ((d, ht) :: rest) ++ (allItems st).map keyData)
      refine hih.trans ?_
      have hmid : (tagged (k + 1) rest ++
          ((((effCounter st : ℕ) : ℚ), d) :: (allItems st).map keyData)).Perm
          (tagged k ((d, ht) :: rest) ++ (allItems st).map keyData) := by
        show (tagged (k + 1) rest ++
            ((((effCounter st : ℕ) : ℚ), d) :: (allItems st).map keyData)).Perm
          (((((k + 1 : ℕ) : ℚ)), d) :: (tagged (k + 1) rest ++
            (allItems st).map keyData))
        rw [hk]
        exact List.perm_middle
      exact (List.Perm.append_left (tagged (k + 1) rest)
        hstep.1).trans hmid


/-- C1 (amended): for feed appends alone (the frame-paced drain of the
item list), sorting all grid items by ascending key and extracting
`itemData` reproduces the caller-supplied feed order, for every feed
and every configuration with at least one column. -/
theorem sortByKey_roundtrip (cfg : MasonryConfig) (hcc : 1 ≤ cfg.columnCount)
    (feed : List (α × ℚ)) :
    (sortByKey (allItems (appendFeed cfg initialState feed))).map
      GridItem.itemData = feed.map Prod.fst := by
  have hperm0 : ((allItems (appendFeed cfg initialState feed)).map
      keyData).Perm (tagged 0 feed) := by
    have h := appendFeed_perm cfg hcc feed initialState 0 rfl (Or.inl rfl)
    have hnil : (allItems (initialState : MasonryState α)).map keyData = [] := rfl
    rw [hnil, List.append_nil] at h
    exact h
  have hsp : (sortByKey (allItems (appendFeed cfg initialState feed))).Perm
      (allItems (appendFeed cfg initialState feed)) :=
    List.perm_insertionSort _ _
  have hpermS : ((sortByKey (allItems (appendFeed cfg initialState
      feed))).map keyData).Perm (tagged 0 feed) :=
    (hsp.map keyData).trans hperm0
  haveI : IsTotal (GridItem α) (fun a b => a.key ≤ b.key) :=
    ⟨fun a b => le_total _ _⟩
  haveI : IsTrans (GridItem α) (fun a b => a.key ≤ b.key) :=
    ⟨fun a b c hab hbc => le_trans hab hbc⟩
  have hsorted : (sortByKey (allItems (appendFeed cfg initialState
      feed))).Pairwise (fun a b => a.key ≤ b.key) :=
    List.sorted_insertionSort _ _
  have htag : (tagged 0 feed).Pairwise (fun a b => a.1 < b.1) :=
    tagged_pairwise feed 0
  have htagnodup : ((tagged 0 feed).map Prod.fst).Nodup := by
    exact (List.pairwise_map).mpr (htag.imp (fun h => ne_of_lt h))
  have hnodup : (((sortByKey (allItems (appendFeed cfg initialState
      feed))).map keyData).map Prod.fst).Nodup :=
    (hpermS.map Prod.fst).symm.nodup htagnodup
  have hne : ((sortByKey (allItems (appendFeed cfg initialState
      feed))).map keyData).Pairwise (fun a b => a.1 ≠ b.1) := by
    have h := hnodup
    rw [List.Nodup, List.pairwise_map] at h
    exact h
  have hle : ((sortByKey (allItems (appendFeed cfg initialState
      feed))).map keyData).Pairwise (fun a b => a.1 ≤ b.1) :=
    (List.pairwise_map).mpr (hsorted.imp (fun h => h))
  have hpair : ((sortByKey (allItems (appendFeed cfg initialState
      feed))).map keyData).Pairwise (fun a b => a.1 < b.1) :=
    (hle.and hne).imp (fun h => lt_of_le_of_ne h.1 h.2)
  haveI : IsAntisymm (ℚ × α) (fun a b => a.1 < b.1) :=
    ⟨fun a b h1 h2 => absurd h2 (not_lt.mpr (le_of_lt h1))⟩
  have heq : (sortByKey (allItems (appendFeed cfg initialState
      feed))).map keyData = tagged 0 feed :=
    List.eq_of_perm_of_sorted hpermS hpair htag
  have hsnd : ((sortByKey (allItems (appendFeed cfg initialState
      feed))).map keyData).map Prod.snd = (tagged 0 feed).map Prod.snd := by
    rw [heq]
  rw [List.map_map] at hsnd
  rw [tagged_map_snd] at hsnd
  exact hsnd



/-- Two-column configuration for the C1 witness. -/
def cfgW : MasonryConfig :=
  { columnCount := 2, itemWidth := 100, gutterWidth := 10 }

/-- C1 witness: a three-item feed on two columns. -/
theorem sortByKey_roundtrip_witness :
    1 ≤ cfgW.columnCount ∧
    (sortByKey (allItems (appendFeed cfgW initialState
      [(7, 5), (8, 3), (9, 4)]))).map GridItem.itemData = [7, 8, 9] :=
  ⟨by decide, sortByKey_roundtrip cfgW (by decide) [(7, 5), (8, 3), (9, 4)]⟩

/-- C1 counterexample: append item 0 (key 1), insert item 1 at
(0, 1) (key 1.002), insert item 2 at (0, 1) again (key 1.003).  The
resulting column order of payloads is [0, 2, 1], but sorting by key
yields [0, 1, 2]; the second inserted item's key 1.003 is NOT strictly
between its predecessor's key 1 and its successor's key 1.002 — the
global `itemKeyCounter` makes later insertions at the same position
sort after earlier ones. -/
theorem insertion_keys_counterexample :
    ((stAXZ.gridItems.get? 0).map (fun col => col.map GridItem.itemData) =
      some [0, 2, 1]) ∧
    ((sortByKey (allItems stAXZ)).map GridItem.itemData = [0, 1, 2]) ∧
    (((stAXZ.gridItems.get? 0).bind (fun col => col.get? 0)).map GridItem.key =
      some 1) ∧
    (((stAXZ.gridItems.get? 0).bind (fun col => col.get? 1)).map GridItem.key =
      some (1003 / 1000)) ∧
    (((stAXZ.gridItems.get? 0).bind (fun col => col.get? 2)).map GridItem.key =
      some (501 / 500)) ∧
    ¬ ((1003 : ℚ) / 1000 < 501 / 500) := by decide


end Masonry
